import Mathlib

/-!
# Verification of the streaming-completion protocol core

Shallow embedding of `src/shared/call-completion-api-server.ts` (the
line-oriented multiplexed wire protocol, the side-channel buffer, chunk
reassembly, the incremental reconstructor, the function/tool-call
interceptor, and the raw-mode completion accumulator), together with
theorems settling the frozen claims about that code.

Modelling conventions:
* JS strings are modelled as `String` (for JSON payload contents) and as
  `List Char` (for wire-level byte/char sequences where index arithmetic
  is needed); a byte chunk of the stream is a `List Char` since every
  byte relevant to the control flow (the newline 0x0A check) is ASCII.
* The host's `JSON.parse` / `JSON.stringify` are not part of this
  repository; they are passed in as explicit parameters (`jparse`,
  `stringify`) and the roundtrip facts the source relies on appear as
  hypotheses.
* Fallible code returns `Except String _`; a thrown JS exception is the
  `.error` case.
-/

namespace AiSdk

/-- JSON values as produced by `JSON.parse`. -/
inductive Json where
  | null : Json
  | bool : Bool → Json
  | num : Int → Json
  | str : String → Json
  | arr : List Json → Json
  | obj : List (String × Json) → Json

/-- JS `typeof` on a parsed JSON value (`null`, arrays and objects all
have typeof `"object"`). -/
def jsTypeof : Json → String
  | .null => "object"
  | .bool _ => "boolean"
  | .num _ => "number"
  | .str _ => "string"
  | .arr _ => "object"
  | .obj _ => "object"

/-- JS `typeof` where `none` stands for `undefined`. -/
def jsTypeofU : Option Json → String
  | none => "undefined"
  | some j => jsTypeof j

/-- JS loose equality `x == null`: true for both `null` and `undefined`. -/
def jsEqNull : Option Json → Bool
  | none => true
  | some .null => true
  | some _ => false

/-- JS property read `v[k]`; `none` models `undefined`.  On arrays a
numeric key indexes the elements (the source only ever reads non-numeric
keys such as `"function_call"`, which are absent on arrays). -/
def jsGetKey : Json → String → Option Json
  | .obj fs, k => (fs.find? (fun f => f.1 == k)).map (fun f => f.2)
  | .arr xs, k =>
      match k.toNat? with
      | some n => xs.get? n
      | none => none
  | _, _ => none

/-- JS `k in v` membership test. -/
def jsHasKey : Json → String → Bool
  | .obj fs, k => fs.any (fun f => f.1 == k)
  | .arr xs, k =>
      match k.toNat? with
      | some n => n < xs.length
      | none => false
  | _, _ => false

/-- Property read lifted over a possibly-`undefined` receiver (all call
sites are short-circuit-guarded in the source, so the receiver is never
actually `undefined` on the paths where the result is inspected). -/
def jsGetKeyU : Option Json → String → Option Json
  | none, _ => none
  | some j, k => jsGetKey j k

/-- `k in v` lifted over a possibly-`undefined` receiver. -/
def jsHasKeyU : Option Json → String → Bool
  | none, _ => false
  | some j, k => jsHasKey j k

/-- `Array.isArray`. -/
def jsIsArray : Option Json → Bool
  | some (.arr _) => true
  | _ => false

/-- JS strict equality `v === "s"` against a string literal. -/
def jsStrictEqStr (v : Option Json) (s : String) : Bool :=
  match v with
  | some (.str t) => t == s
  | _ => false

/-- JS truthiness of a possibly-`undefined` value, as used in
`payload.function_call ? "function_call" : "tool_calls"`. -/
def jsTruthy : Option Json → Bool
  | none => false
  | some .null => false
  | some (.bool b) => b
  | some (.num n) => !(n == 0)
  | some (.str s) => !(s == "")
  | some (.arr _) => true
  | some (.obj _) => true

/-- A decoded stream part: `\x7btype, value\x7d` as returned by the
per-kind `parse` functions of `shared/stream-parts.ts`. -/
structure ParsedPart where
  type : String
  value : Json

/-- `textStreamPart.parse` (code `"0"`). -/
def textPartParse (value : Json) : Except String ParsedPart :=
  if jsTypeof value != "string" then
    .error "\"text\" parts expect a string value."
  else
    .ok ⟨"text", value⟩

/-- `functionCallStreamPart.parse` (code `"1"`). -/
def functionCallPartParse (value : Json) : Except String ParsedPart :=
  if jsEqNull (some value) || jsTypeof value != "object"
      || !(jsHasKey value "function_call")
      || jsTypeofU (jsGetKey value "function_call") != "object"
      || jsEqNull (jsGetKey value "function_call")
      || !(jsHasKeyU (jsGetKey value "function_call") "name")
      || !(jsHasKeyU (jsGetKey value "function_call") "arguments")
      || jsTypeofU (jsGetKeyU (jsGetKey value "function_call") "name") != "string"
      || jsTypeofU (jsGetKeyU (jsGetKey value "function_call") "arguments") != "string" then
    .error "\"function_call\" parts expect an object with a \"function_call\" property."
  else
    .ok ⟨"function_call", value⟩

/-- `dataStreamPart.parse` (code `"2"`). -/
def dataPartParse (value : Json) : Except String ParsedPart :=
  if !(jsIsArray (some value)) then
    .error "\"data\" parts expect an array value."
  else
    .ok ⟨"data", value⟩

/-- `errorStreamPart.parse` (code `"3"`). -/
def errorPartParse (value : Json) : Except String ParsedPart :=
  if jsTypeof value != "string" then
    .error "\"error\" parts expect a string value."
  else
    .ok ⟨"error", value⟩

/-- The per-item check of `assistantMessageStreamPart.parse`:
`item != null && typeof item === "object" && "type" in item &&
item.type === "text" && "text" in item && item.text != null &&
typeof item.text === "object" && "value" in item.text &&
typeof item.text.value === "string"`. -/
def assistantContentItemOk (item : Json) : Bool :=
  !(jsEqNull (some item)) && jsTypeof item == "object"
    && jsHasKey item "type"
    && jsStrictEqStr (jsGetKey item "type") "text"
    && jsHasKey item "text"
    && !(jsEqNull (jsGetKey item "text"))
    && jsTypeofU (jsGetKey item "text") == "object"
    && jsHasKeyU (jsGetKey item "text") "value"
    && jsTypeofU (jsGetKeyU (jsGetKey item "text") "value") == "string"

/-- `value.content.every(...)` over the content array (`false` when
`value.content` is not an array; the source guards with
`Array.isArray`). -/
def assistantContentAllOk (value : Json) : Bool :=
  match jsGetKey value "content" with
  | some (.arr xs) => xs.all assistantContentItemOk
  | _ => false

/-- `assistantMessageStreamPart.parse` (code `"4"`). -/
def assistantMessagePartParse (value : Json) : Except String ParsedPart :=
  if jsEqNull (some value) || jsTypeof value != "object"
      || !(jsHasKey value "id") || !(jsHasKey value "role") || !(jsHasKey value "content")
      || jsTypeofU (jsGetKey value "id") != "string"
      || jsTypeofU (jsGetKey value "role") != "string"
      || !(jsStrictEqStr (jsGetKey value "role") "assistant")
      || !(jsIsArray (jsGetKey value "content"))
      || !(assistantContentAllOk value) then
    .error "\"assistant_message\" parts expect an object with an \"id\", \"role\", and \"content\" property."
  else
    .ok ⟨"assistant_message", value⟩

/-- `assistantControlDataStreamPart.parse` (code `"5"`): on success the
value is rebuilt keeping only `threadId` and `messageId`. -/
def assistantControlDataPartParse (value : Json) : Except String ParsedPart :=
  if jsEqNull (some value) || jsTypeof value != "object"
      || !(jsHasKey value "threadId") || !(jsHasKey value "messageId")
      || jsTypeofU (jsGetKey value "threadId") != "string"
      || jsTypeofU (jsGetKey value "messageId") != "string" then
    .error "\"assistant_control_data\" parts expect an object with a \"threadId\" and \"messageId\" property."
  else
    match jsGetKey value "threadId", jsGetKey value "messageId" with
    | some tid, some mid =>
        .ok ⟨"assistant_control_data", Json.obj [("threadId", tid), ("messageId", mid)]⟩
    | _, _ =>
        -- unreachable: the guard above established both properties exist
        .error "\"assistant_control_data\" parts expect an object with a \"threadId\" and \"messageId\" property."

/-- `dataMessageStreamPart.parse` (code `"6"`). -/
def dataMessagePartParse (value : Json) : Except String ParsedPart :=
  if jsEqNull (some value) || jsTypeof value != "object"
      || !(jsHasKey value "role") || !(jsHasKey value "data")
      || jsTypeofU (jsGetKey value "role") != "string"
      || !(jsStrictEqStr (jsGetKey value "role") "data") then
    .error "\"data_message\" parts expect an object with a \"role\" and \"data\" property."
  else
    .ok ⟨"data_message", value⟩

/-- The element callback passed to `value.tool_calls.some` in
`toolCallStreamPart.parse`.  In the source the arrow function has a
block body containing a bare expression statement with no `return`, so
the callback returns `undefined` — falsy — for every element; the
element-shape expression is computed and discarded. -/
def toolCallElemFlag (_tc : Json) : Bool :=
  false

/-- `value.tool_calls.some((tc) => \x7b ... \x7d)` (always `false`, see
`toolCallElemFlag`). -/
def toolCallsSomeCheck (value : Json) : Bool :=
  match jsGetKey value "tool_calls" with
  | some (.arr xs) => xs.any toolCallElemFlag
  | _ => false

/-- `toolCallStreamPart.parse` (code `"7"`). -/
def toolCallPartParse (value : Json) : Except String ParsedPart :=
  if jsEqNull (some value) || jsTypeof value != "object"
      || !(jsHasKey value "tool_calls")
      || jsTypeofU (jsGetKey value "tool_calls") != "object"
      || jsEqNull (jsGetKey value "tool_calls")
      || !(jsIsArray (jsGetKey value "tool_calls"))
      || toolCallsSomeCheck value then
    .error "\"tool_calls\" parts expect an object with a ToolCallPayload."
  else
    .ok ⟨"tool_calls", value⟩

/-- `messageAnnotationsStreamPart.parse` (code `"8"`). -/
def messageAnnotationsPartParse (value : Json) : Except String ParsedPart :=
  if !(jsIsArray (some value)) then
    .error "\"message_annotations\" parts expect an array value."
  else
    .ok ⟨"message_annotations", value⟩

/-- One entry of the stream-part table. -/
structure StreamPartDef where
  code : String
  name : String
  parse : Json → Except String ParsedPart

def textStreamPart : StreamPartDef := ⟨"0", "text", textPartParse⟩
def functionCallStreamPart : StreamPartDef := ⟨"1", "function_call", functionCallPartParse⟩
def dataStreamPart : StreamPartDef := ⟨"2", "data", dataPartParse⟩
def errorStreamPart : StreamPartDef := ⟨"3", "error", errorPartParse⟩
def assistantMessageStreamPart : StreamPartDef := ⟨"4", "assistant_message", assistantMessagePartParse⟩
def assistantControlDataStreamPart : StreamPartDef := ⟨"5", "assistant_control_data", assistantControlDataPartParse⟩
def dataMessageStreamPart : StreamPartDef := ⟨"6", "data_message", dataMessagePartParse⟩
def toolCallStreamPart : StreamPartDef := ⟨"7", "tool_calls", toolCallPartParse⟩
def messageAnnotationsStreamPart : StreamPartDef := ⟨"8", "message_annotations", messageAnnotationsPartParse⟩

/-- The fixed 9-entry table `streamParts`. -/
def streamParts : List StreamPartDef :=
  [textStreamPart, functionCallStreamPart, dataStreamPart, errorStreamPart,
   assistantMessageStreamPart, assistantControlDataStreamPart, dataMessageStreamPart,
   toolCallStreamPart, messageAnnotationsStreamPart]

/-- `validCodes = streamParts.map(part => part.code)`. -/
def validCodes : List String :=
  streamParts.map (fun part => part.code)

/-- `streamPartsByCode` lookup. -/
def streamPartByCode (code : String) : Option StreamPartDef :=
  streamParts.find? (fun part => part.code == code)

/-- `streamParts.find(part => part.name === type)` as used by the
encoder. -/
def streamPartByName (name : String) : Option StreamPartDef :=
  streamParts.find? (fun part => part.name == name)

/-- First index of a character in a char list (`String.indexOf`
restricted to the one-character needle used by the source); `none`
models the JS result `-1`. -/
def indexOfChar : List Char → Char → Option Nat
  | [], _ => none
  | c :: cs, t => if c = t then some 0 else (indexOfChar cs t).map (fun n => n + 1)

/-- The tail of `parseStreamPart` after the separator split and code
check: `JSON.parse` the remainder, then apply the per-kind validator. -/
def parseStreamPartAfterSplit (jparse : List Char → Except String Json)
    (codeStr : String) (textValue : List Char) : Except String ParsedPart :=
  match jparse textValue with
  | .error e => .error e
  | .ok jsonValue =>
      match streamPartByCode codeStr with
      | some part => part.parse jsonValue
      | none => .error "Failed to parse stream string. Invalid code."

/-- `parseStreamPart(line)` from `shared/stream-parts.ts`.  The host
`JSON.parse` is passed in as `jparse` (its failure is a thrown
`SyntaxError`, modelled by the `.error` case). -/
def parseStreamPart (jparse : List Char → Except String Json) (line : List Char) :
    Except String ParsedPart :=
  match indexOfChar line ':' with
  | none => .error "Failed to parse stream string. No separator found."
  | some firstSeparatorIndex =>
      let codeStr := String.mk (line.take firstSeparatorIndex)
      if validCodes.contains codeStr then
        parseStreamPartAfterSplit jparse codeStr (line.drop (firstSeparatorIndex + 1))
      else
        .error "Failed to parse stream string. Invalid code."

/-- `formatStreamPart(type, value)`: `` `${code}:${JSON.stringify(value)}\n` ``
with the host `JSON.stringify` passed in as `stringify`. -/
def formatStreamPart (stringify : Json → List Char) (type : String) (value : Json) :
    Except String (List Char) :=
  match streamPartByName type with
  | none => .error ("Invalid stream part type: " ++ type)
  | some streamPart => .ok (streamPart.code.toList ++ ':' :: (stringify value ++ ['\n']))

/-- The structural validator of the table entry named `k` (the decoder
applies exactly this function to the JSON-parsed payload). -/
def parseValueByName (k : String) (v : Json) : Except String ParsedPart :=
  match streamPartByName k with
  | some part => part.parse v
  | none => .error ("Invalid stream part type: " ++ k)

/-- Spec-side structural normalization (claim C1): identity for every
kind except `assistant_control_data`, which keeps only the `threadId`
and `messageId` fields. -/
def c1Normalized (k : String) (v : Json) : Json :=
  if k = "assistant_control_data" then
    Json.obj [("threadId", (jsGetKey v "threadId").getD Json.null),
              ("messageId", (jsGetKey v "messageId").getD Json.null)]
  else v

theorem parseStreamPart_code_text (jparse : List Char → Except String Json)
    (rest : List Char) (v : Json) (hj : jparse rest = .ok v) :
    parseStreamPart jparse (textStreamPart.code.toList ++ ':' :: rest) = textPartParse v := by
  have h1 : parseStreamPart jparse (textStreamPart.code.toList ++ ':' :: rest)
      = parseStreamPartAfterSplit jparse "0" rest := rfl
  rw [h1]
  unfold parseStreamPartAfterSplit
  rw [hj]
  rfl

theorem parseStreamPart_code_fc (jparse : List Char → Except String Json)
    (rest : List Char) (v : Json) (hj : jparse rest = .ok v) :
    parseStreamPart jparse (functionCallStreamPart.code.toList ++ ':' :: rest) = functionCallPartParse v := by
  have h1 : parseStreamPart jparse (functionCallStreamPart.code.toList ++ ':' :: rest)
      = parseStreamPartAfterSplit jparse "1" rest := rfl
  rw [h1]
  unfold parseStreamPartAfterSplit
  rw [hj]
  rfl

theorem parseStreamPart_code_data (jparse : List Char → Except String Json)
    (rest : List Char) (v : Json) (hj : jparse rest = .ok v) :
    parseStreamPart jparse (dataStreamPart.code.toList ++ ':' :: rest) = dataPartParse v := by
  have h1 : parseStreamPart jparse (dataStreamPart.code.toList ++ ':' :: rest)
      = parseStreamPartAfterSplit jparse "2" rest := rfl
  rw [h1]
  unfold parseStreamPartAfterSplit
  rw [hj]
  rfl

theorem parseStreamPart_code_err (jparse : List Char → Except String Json)
    (rest : List Char) (v : Json) (hj : jparse rest = .ok v) :
    parseStreamPart jparse (errorStreamPart.code.toList ++ ':' :: rest) = errorPartParse v := by
  have h1 : parseStreamPart jparse (errorStreamPart.code.toList ++ ':' :: rest)
      = parseStreamPartAfterSplit jparse "3" rest := rfl
  rw [h1]
  unfold parseStreamPartAfterSplit
  rw [hj]
  rfl

theorem parseStreamPart_code_am (jparse : List Char → Except String Json)
    (rest : List Char) (v : Json) (hj : jparse rest = .ok v) :
    parseStreamPart jparse (assistantMessageStreamPart.code.toList ++ ':' :: rest) = assistantMessagePartParse v := by
  have h1 : parseStreamPart jparse (assistantMessageStreamPart.code.toList ++ ':' :: rest)
      = parseStreamPartAfterSplit jparse "4" rest := rfl
  rw [h1]
  unfold parseStreamPartAfterSplit
  rw [hj]
  rfl

theorem parseStreamPart_code_acd (jparse : List Char → Except String Json)
    (rest : List Char) (v : Json) (hj : jparse rest = .ok v) :
    parseStreamPart jparse (assistantControlDataStreamPart.code.toList ++ ':' :: rest) = assistantControlDataPartParse v := by
  have h1 : parseStreamPart jparse (assistantControlDataStreamPart.code.toList ++ ':' :: rest)
      = parseStreamPartAfterSplit jparse "5" rest := rfl
  rw [h1]
  unfold parseStreamPartAfterSplit
  rw [hj]
  rfl

theorem parseStreamPart_code_dm (jparse : List Char → Except String Json)
    (rest : List Char) (v : Json) (hj : jparse rest = .ok v) :
    parseStreamPart jparse (dataMessageStreamPart.code.toList ++ ':' :: rest) = dataMessagePartParse v := by
  have h1 : parseStreamPart jparse (dataMessageStreamPart.code.toList ++ ':' :: rest)
      = parseStreamPartAfterSplit jparse "6" rest := rfl
  rw [h1]
  unfold parseStreamPartAfterSplit
  rw [hj]
  rfl

theorem parseStreamPart_code_tc (jparse : List Char → Except String Json)
    (rest : List Char) (v : Json) (hj : jparse rest = .ok v) :
    parseStreamPart jparse (toolCallStreamPart.code.toList ++ ':' :: rest) = toolCallPartParse v := by
  have h1 : parseStreamPart jparse (toolCallStreamPart.code.toList ++ ':' :: rest)
      = parseStreamPartAfterSplit jparse "7" rest := rfl
  rw [h1]
  unfold parseStreamPartAfterSplit
  rw [hj]
  rfl

theorem parseStreamPart_code_ma (jparse : List Char → Except String Json)
    (rest : List Char) (v : Json) (hj : jparse rest = .ok v) :
    parseStreamPart jparse (messageAnnotationsStreamPart.code.toList ++ ':' :: rest) = messageAnnotationsPartParse v := by
  have h1 : parseStreamPart jparse (messageAnnotationsStreamPart.code.toList ++ ':' :: rest)
      = parseStreamPartAfterSplit jparse "8" rest := rfl
  rw [h1]
  unfold parseStreamPartAfterSplit
  rw [hj]
  rfl

theorem textPartParse_ok_eq {v : Json} {p : ParsedPart} (h : textPartParse v = .ok p) :
    p = ⟨"text", v⟩ := by
  unfold textPartParse at h
  split at h
  · simp at h
  · injection h with h; exact h.symm

theorem functionCallPartParse_ok_eq {v : Json} {p : ParsedPart}
    (h : functionCallPartParse v = .ok p) : p = ⟨"function_call", v⟩ := by
  unfold functionCallPartParse at h
  split at h
  · simp at h
  · injection h with h; exact h.symm

theorem dataPartParse_ok_eq {v : Json} {p : ParsedPart} (h : dataPartParse v = .ok p) :
    p = ⟨"data", v⟩ := by
  unfold dataPartParse at h
  split at h
  · simp at h
  · injection h with h; exact h.symm

theorem errorPartParse_ok_eq {v : Json} {p : ParsedPart} (h : errorPartParse v = .ok p) :
    p = ⟨"error", v⟩ := by
  unfold errorPartParse at h
  split at h
  · simp at h
  · injection h with h; exact h.symm

theorem assistantMessagePartParse_ok_eq {v : Json} {p : ParsedPart}
    (h : assistantMessagePartParse v = .ok p) : p = ⟨"assistant_message", v⟩ := by
  unfold assistantMessagePartParse at h
  split at h
  · simp at h
  · injection h with h; exact h.symm

theorem dataMessagePartParse_ok_eq {v : Json} {p : ParsedPart}
    (h : dataMessagePartParse v = .ok p) : p = ⟨"data_message", v⟩ := by
  unfold dataMessagePartParse at h
  split at h
  · simp at h
  · injection h with h; exact h.symm

theorem toolCallPartParse_ok_eq {v : Json} {p : ParsedPart}
    (h : toolCallPartParse v = .ok p) : p = ⟨"tool_calls", v⟩ := by
  unfold toolCallPartParse at h
  split at h
  · simp at h
  · injection h with h; exact h.symm

theorem messageAnnotationsPartParse_ok_eq {v : Json} {p : ParsedPart}
    (h : messageAnnotationsPartParse v = .ok p) : p = ⟨"message_annotations", v⟩ := by
  unfold messageAnnotationsPartParse at h
  split at h
  · simp at h
  · injection h with h; exact h.symm

theorem assistantControlDataPartParse_ok_eq {v : Json} {p : ParsedPart}
    (h : assistantControlDataPartParse v = .ok p) :
    p = ⟨"assistant_control_data", c1Normalized "assistant_control_data" v⟩ := by
  unfold assistantControlDataPartParse at h
  split at h
  · simp at h
  · split at h
    · rename_i tid mid htid hmid
      injection h with h
      subst h
      simp [c1Normalized, htid, hmid]
    · simp at h

/-- **C1.** For every part kind `k` in the 9-entry table and every payload
`v` that is structurally valid for `k` (acceptance by the kind's own
structural validator, which contains the spec's shape table),
`parseStreamPart (formatStreamPart k v)` succeeds and returns
`\x7btype := k, value := v'\x7d` where `v'` is the structurally
normalized payload: `v` itself for every kind except
`assistant_control_data`, which keeps only the `threadId` and
`messageId` fields.  The host JSON codec is abstracted as
`stringify`/`jparse`; its serialize-then-parse identity on `v` (with the
trailing newline the decoder leaves on the JSON text) is the `hjson`
hypothesis. -/
theorem c1_format_then_parse_roundtrip
    (stringify : Json → List Char) (jparse : List Char → Except String Json)
    (k : String) (v : Json) (p : ParsedPart) (line : List Char)
    (hv : parseValueByName k v = .ok p)
    (hfmt : formatStreamPart stringify k v = .ok line)
    (hjson : jparse (stringify v ++ ['\n']) = .ok v) :
    parseStreamPart jparse line = .ok ⟨k, c1Normalized k v⟩ := by
  unfold parseValueByName at hv
  unfold formatStreamPart at hfmt
  rcases hfind : streamPartByName k with _ | sp
  · rw [hfind] at hv
    simp at hv
  · rw [hfind] at hv hfmt
    simp only at hv hfmt
    have hline : sp.code.toList ++ ':' :: (stringify v ++ ['\n']) = line := by
      injection hfmt
    subst hline
    unfold streamPartByName at hfind
    have hmem : sp ∈ streamParts := List.mem_of_find?_eq_some hfind
    have hname : sp.name = k := by
      have := List.find?_some hfind
      simpa using this
    subst hname
    simp only [streamParts, List.mem_cons, List.not_mem_nil, or_false] at hmem
    rcases hmem with rfl | rfl | rfl | rfl | rfl | rfl | rfl | rfl | rfl
    · have hv' : textPartParse v = .ok p := hv
      rw [parseStreamPart_code_text jparse _ v hjson, hv',
        textPartParse_ok_eq hv']
      simp [c1Normalized, textStreamPart]
    · have hv' : functionCallPartParse v = .ok p := hv
      rw [parseStreamPart_code_fc jparse _ v hjson, hv',
        functionCallPartParse_ok_eq hv']
      simp [c1Normalized, functionCallStreamPart]
    · have hv' : dataPartParse v = .ok p := hv
      rw [parseStreamPart_code_data jparse _ v hjson, hv',
        dataPartParse_ok_eq hv']
      simp [c1Normalized, dataStreamPart]
    · have hv' : errorPartParse v = .ok p := hv
      rw [parseStreamPart_code_err jparse _ v hjson, hv',
        errorPartParse_ok_eq hv']
      simp [c1Normalized, errorStreamPart]
    · have hv' : assistantMessagePartParse v = .ok p := hv
      rw [parseStreamPart_code_am jparse _ v hjson, hv',
        assistantMessagePartParse_ok_eq hv']
      simp [c1Normalized, assistantMessageStreamPart]
    · have hv' : assistantControlDataPartParse v = .ok p := hv
      rw [parseStreamPart_code_acd jparse _ v hjson, hv',
        assistantControlDataPartParse_ok_eq hv']
      simp [assistantControlDataStreamPart]
    · have hv' : dataMessagePartParse v = .ok p := hv
      rw [parseStreamPart_code_dm jparse _ v hjson, hv',
        dataMessagePartParse_ok_eq hv']
      simp [c1Normalized, dataMessageStreamPart]
    · have hv' : toolCallPartParse v = .ok p := hv
      rw [parseStreamPart_code_tc jparse _ v hjson, hv',
        toolCallPartParse_ok_eq hv']
      simp [c1Normalized, toolCallStreamPart]
    · have hv' : messageAnnotationsPartParse v = .ok p := hv
      rw [parseStreamPart_code_ma jparse _ v hjson, hv',
        messageAnnotationsPartParse_ok_eq hv']
      simp [c1Normalized, messageAnnotationsStreamPart]

/-- A concrete stand-in for `JSON.stringify`, adequate for the single
payload the C1 witness uses. -/
def stringifyW : Json → List Char :=
  fun _ => "\"x\"".toList

/-- A concrete stand-in for `JSON.parse`, adequate for the single line
the C1 witness uses. -/
def jparseW : List Char → Except String Json :=
  fun s => if s == "\"x\"\n".toList then .ok (Json.str "x") else .error "unsupported input"

/-- Witness for C1 at kind `"text"` with payload `"x"`: the hypotheses
hold by computation and the roundtrip yields the text part back. -/
theorem c1_format_then_parse_roundtrip_witness :
    parseStreamPart jparseW ("0:\"x\"\n".toList) =
      .ok ⟨"text", c1Normalized "text" (Json.str "x")⟩ :=
  c1_format_then_parse_roundtrip stringifyW jparseW "text" (Json.str "x")
    ⟨"text", Json.str "x"⟩ ("0:\"x\"\n".toList) rfl rfl rfl

/-- The element-shape expression that the `some` callback in
`toolCallStreamPart.parse` computes and then discards (the arrow
function's block body has no `return` statement, so this value never
reaches `some`). -/
def toolCallElemDiscardedCheck (tc : Json) : Bool :=
  jsEqNull (some tc) || jsTypeof tc != "object"
    || !(jsHasKey tc "id") || jsTypeofU (jsGetKey tc "id") != "string"
    || !(jsHasKey tc "type") || jsTypeofU (jsGetKey tc "type") != "string"
    || !(jsHasKey tc "function") || jsEqNull (jsGetKey tc "function")
    || jsTypeofU (jsGetKey tc "function") != "object"
    || !(jsHasKeyU (jsGetKey tc "function") "arguments")
    || jsTypeofU (jsGetKeyU (jsGetKey tc "function") "name") != "string"
    || jsTypeofU (jsGetKeyU (jsGetKey tc "function") "arguments") != "string"

/-- **C2** (code-bug evaluation).  Decoding a `tool_calls` payload whose
`tool_calls` array contains the element `null` — which is not an object
with string `id`, string `type` and a `function` object — nevertheless
succeeds, because the validator's `some` callback always returns
`undefined`; the discarded shape expression would have flagged exactly
this element. -/
theorem c2_tool_calls_element_check_skipped :
    parseValueByName "tool_calls" (Json.obj [("tool_calls", Json.arr [Json.null])])
        = .ok ⟨"tool_calls", Json.obj [("tool_calls", Json.arr [Json.null])]⟩
      ∧ toolCallElemDiscardedCheck Json.null = true :=
  ⟨rfl, rfl⟩

/-- Mutable state of an `experimental_StreamData` instance
(`streams/stream-data.ts`): the two pending queues, the closed flag,
and whether the stream `start` callback has installed the controller. -/
structure SDState where
  data : List Json
  messageAnnotations : List Json
  isClosed : Bool
  controllerInitialized : Bool

/-- State after the constructor ran and the owned stream started. -/
def SDState.started : SDState :=
  ⟨[], [], false, true⟩

/-- `close()`: the `Except` component is the thrown error (if any), the
second component the state after the call.  A throw happens before any
mutation, so the state is returned unchanged on failure. -/
def sdClose (st : SDState) : Except String Unit × SDState :=
  if st.isClosed then
    (.error "Data Stream has already been closed.", st)
  else if !st.controllerInitialized then
    (.error "Stream controller is not initialized.", st)
  else
    (.ok (), { st with isClosed := true })

/-- `append(value)`. -/
def sdAppend (st : SDState) (value : Json) : Except String Unit × SDState :=
  if st.isClosed then
    (.error "Data Stream has already been closed.", st)
  else
    (.ok (), { st with data := st.data ++ [value] })

/-- `appendMessageAnnotation(value)` (name shortened for this file). -/
def sdAppendMessageAnnot (st : SDState) (value : Json) : Except String Unit × SDState :=
  if st.isClosed then
    (.error "Data Stream has already been closed.", st)
  else
    (.ok (), { st with messageAnnotations := st.messageAnnotations ++ [value] })

/-- Total wrapper for the encoder at a kind that is in the table (the
`experimental_StreamData` transform only formats `"data"` and
`"message_annotations"`, which never hit the invalid-kind throw). -/
def fmtPart (stringify : Json → List Char) (type : String) (value : Json) : List Char :=
  match formatStreamPart stringify type value with
  | .ok l => l
  | .error _ => []

/-- The `transform` callback of the `TransformStream` owned by
`experimental_StreamData`: flush the pending data queue (one `data` part
carrying the whole queue) if non-empty, then the pending annotation
queue (one `message_annotations` part) if non-empty, then forward the
incoming chunk.  Returns the successor state and the chunks enqueued, in
order. -/
def sdTransform (stringify : Json → List Char) (st : SDState) (chunk : List Char) :
    SDState × List (List Char) :=
  let step1 :=
    if st.data.length > 0 then
      ({ st with data := [] }, [fmtPart stringify "data" (Json.arr st.data)])
    else (st, [])
  let step2 :=
    if step1.1.messageAnnotations.length != 0 then
      ({ step1.1 with messageAnnotations := [] },
       [fmtPart stringify "message_annotations" (Json.arr step1.1.messageAnnotations)])
    else (step1.1, [])
  (step2.1, step1.2 ++ step2.2 ++ [chunk])

/-- **C5.** For every incoming content unit through the side-channel
multiplexer: a non-empty pending-data queue is emitted as exactly one
`data` part carrying the whole queue (append order) immediately before
the unit and cleared; then a non-empty pending-annotation queue as
exactly one `message_annotations` part, also cleared; with both queues
empty the unit is forwarded alone, with no extra parts. -/
theorem c5_multiplexer_flush_order (stringify : Json → List Char)
    (st : SDState) (chunk : List Char) :
    (st.data = [] → st.messageAnnotations = [] →
        sdTransform stringify st chunk = (st, [chunk]))
    ∧ (st.data ≠ [] → st.messageAnnotations = [] →
        sdTransform stringify st chunk =
          ({ st with data := [] },
           [fmtPart stringify "data" (Json.arr st.data), chunk]))
    ∧ (st.data = [] → st.messageAnnotations ≠ [] →
        sdTransform stringify st chunk =
          ({ st with messageAnnotations := [] },
           [fmtPart stringify "message_annotations" (Json.arr st.messageAnnotations), chunk]))
    ∧ (st.data ≠ [] → st.messageAnnotations ≠ [] →
        sdTransform stringify st chunk =
          ({ st with data := [], messageAnnotations := [] },
           [fmtPart stringify "data" (Json.arr st.data),
            fmtPart stringify "message_annotations" (Json.arr st.messageAnnotations),
            chunk])) := by
  refine ⟨?_, ?_, ?_, ?_⟩ <;> intro hd ha <;>
    simp [sdTransform, hd, ha, List.length_pos, List.length_eq_zero]

/-- Witness for C5: two values appended at successive steps before a
content unit come out as one batch part, in append order, before the
unit. -/
theorem c5_multiplexer_flush_order_witness :
    sdTransform stringifyW
        (sdAppend (sdAppend SDState.started (Json.num 1)).2 (Json.num 2)).2
        ("c".toList) =
      ({ (sdAppend (sdAppend SDState.started (Json.num 1)).2 (Json.num 2)).2 with data := [] },
       [fmtPart stringifyW "data" (Json.arr [Json.num 1, Json.num 2]), "c".toList]) :=
  (c5_multiplexer_flush_order stringifyW
    (sdAppend (sdAppend SDState.started (Json.num 1)).2 (Json.num 2)).2
    ("c".toList)).2.1 (by simp [sdAppend, SDState.started]) rfl

/-- **C9.** After a successful `close`, closing again fails with the
already-closed error and leaves the state unchanged, and `append` /
`appendMessageAnnotation` fail for any value, also leaving the pending
queues and the closed flag unchanged. -/
theorem c9_protocol_misuse_after_close (st : SDState) (v : Json)
    (h : (sdClose st).1 = .ok ()) :
    (sdClose (sdClose st).2).1 = .error "Data Stream has already been closed."
      ∧ (sdClose (sdClose st).2).2 = (sdClose st).2
      ∧ sdAppend (sdClose st).2 v
          = (.error "Data Stream has already been closed.", (sdClose st).2)
      ∧ sdAppendMessageAnnot (sdClose st).2 v
          = (.error "Data Stream has already been closed.", (sdClose st).2) := by
  have hc : st.isClosed = false ∧ st.controllerInitialized = true := by
    unfold sdClose at h
    by_cases h1 : st.isClosed
    · simp [h1] at h
    · by_cases h2 : st.controllerInitialized
      · exact ⟨by simpa using h1, h2⟩
      · simp [h1, h2] at h
  have h2 : (sdClose st).2 = { st with isClosed := true } := by
    unfold sdClose
    simp [hc.1, hc.2]
  rw [h2]
  unfold sdClose sdAppend sdAppendMessageAnnot
  simp

/-- Witness for C9 at the freshly started buffer. -/
theorem c9_protocol_misuse_after_close_witness :
    (sdClose (sdClose SDState.started).2).1 = .error "Data Stream has already been closed."
      ∧ (sdClose (sdClose SDState.started).2).2 = (sdClose SDState.started).2
      ∧ sdAppend (sdClose SDState.started).2 Json.null
          = (.error "Data Stream has already been closed.", (sdClose SDState.started).2)
      ∧ sdAppendMessageAnnot (sdClose SDState.started).2 Json.null
          = (.error "Data Stream has already been closed.", (sdClose SDState.started).2) :=
  c9_protocol_misuse_after_close SDState.started Json.null rfl

/-- JS `string.split("\n")` restricted to a one-character separator:
separators dropped, empty fragments kept (so a trailing newline yields a
trailing empty fragment). -/
def splitOnChar (sep : Char) : List Char → List (List Char)
  | [] => [[]]
  | c :: cs =>
      let rest := splitOnChar sep cs
      if c = sep then [] :: rest
      else
        match rest with
        | r :: rs => (c :: r) :: rs
        | [] => [[c]]

/-- `lines.map(parseStreamPart)` with the JS behavior of throwing at the
first failing line. -/
def mapParseLines (jparse : List Char → Except String Json) :
    List (List Char) → Except String (List ParsedPart)
  | [] => .ok []
  | l :: ls =>
      match parseStreamPart jparse l with
      | .error e => .error e
      | .ok p =>
          match mapParseLines jparse ls with
          | .error e => .error e
          | .ok ps => .ok (p :: ps)

/-- One flush of `readDataStream`: concatenate the buffered chunks,
decode, split on newline, drop empty fragments, parse each remaining
line. -/
def processBuffered (jparse : List Char → Except String Json) (buf : List Char) :
    Except String (List ParsedPart) :=
  mapParseLines jparse ((splitOnChar '\n' buf).filter (fun l => l != []))

/-- One flush followed by the continuation of the read loop: decode the
whole buffer, then splice the parts decoded from the rest of the input
behind them (an error from either side aborts). -/
def flushThen (jparse : List Char → Except String Json) (buf2 : List Char)
    (k : Except String (List ParsedPart)) : Except String (List ParsedPart) :=
  match processBuffered jparse buf2 with
  | .error e => .error e
  | .ok ps =>
      match k with
      | .error e => .error e
      | .ok rest => .ok (ps ++ rest)

/-- The loop of `readDataStream` (`shared/read-data-stream.ts`) over the
remaining chunks of the byte source, carrying the currently buffered
bytes: a chunk that does not end with the newline byte 0x0A is only
buffered; a chunk that does triggers a flush of the whole buffer; end of
input flushes whatever is still buffered.  (Cooperative cancellation is
not modelled; the claims do not touch it.) -/
def readDataStreamAux (jparse : List Char → Except String Json) :
    List (List Char) → List Char → Except String (List ParsedPart)
  | [], buf =>
      if buf = [] then .ok []
      else processBuffered jparse buf
  | c :: cs, buf =>
      if c.getLast? = some '\n' then
        flushThen jparse (buf ++ c) (readDataStreamAux jparse cs [])
      else readDataStreamAux jparse cs (buf ++ c)

/-- `readDataStream` on a whole (finite) chunk sequence. -/
def readDataStream (jparse : List Char → Except String Json)
    (chunks : List (List Char)) : Except String (List ParsedPart) :=
  readDataStreamAux jparse chunks []

theorem processBuffered_nil (jparse : List Char → Except String Json) :
    processBuffered jparse [] = .ok [] := rfl

theorem readDataStreamAux_nil (jparse : List Char → Except String Json) (buf : List Char) :
    readDataStreamAux jparse [] buf =
      if buf = [] then .ok [] else processBuffered jparse buf := rfl

theorem readDataStreamAux_cons (jparse : List Char → Except String Json)
    (c : List Char) (cs : List (List Char)) (buf : List Char) :
    readDataStreamAux jparse (c :: cs) buf =
      if c.getLast? = some '\n' then
        flushThen jparse (buf ++ c) (readDataStreamAux jparse cs [])
      else readDataStreamAux jparse cs (buf ++ c) := rfl

theorem readDataStreamAux_no_mid_newline (jparse : List Char → Except String Json) :
    ∀ (cs : List (List Char)) (buf : List Char),
      (∀ c ∈ cs.dropLast, c.getLast? ≠ some '\n') →
      readDataStreamAux jparse cs buf = processBuffered jparse (buf ++ cs.flatten) := by
  intro cs
  induction cs with
  | nil =>
      intro buf _
      rw [readDataStreamAux_nil]
      split
      · rename_i hb
        subst hb
        exact (processBuffered_nil jparse).symm
      · simp
  | cons c cs' ih =>
      intro buf h
      rw [readDataStreamAux_cons]
      cases cs' with
      | nil =>
          by_cases hn : c.getLast? = some '\n'
          · rw [if_pos hn, readDataStreamAux_nil]
            unfold flushThen
            cases hp : processBuffered jparse (buf ++ c) with
            | error e => simp [hp]
            | ok ps => simp [hp]
          · rw [if_neg hn, readDataStreamAux_nil]
            by_cases hb : buf ++ c = []
            · rw [if_pos hb]
              simp [hb, processBuffered_nil]
            · rw [if_neg hb]
              simp
      | cons d cs'' =>
          have hc : c.getLast? ≠ some '\n' := by
            apply h
            simp [List.dropLast]
          rw [if_neg hc, ih (buf ++ c) (fun x hx => h x (by simp [List.dropLast, hx]))]
          simp

/-- **C6.** As long as no chunk before the last ends with the newline
byte, `readDataStream` buffers the raw chunks and decodes in one pass:
concatenating all buffered bytes, splitting on newline, dropping empty
fragments, parsing each remaining line as a stream part, and yielding
the parts in order. -/
theorem c6_chunk_reassembly (jparse : List Char → Except String Json)
    (chunks : List (List Char))
    (h : ∀ c ∈ chunks.dropLast, c.getLast? ≠ some '\n') :
    readDataStream jparse chunks = processBuffered jparse chunks.flatten := by
  unfold readDataStream
  simpa using readDataStreamAux_no_mid_newline jparse chunks [] h

/-- A concrete stand-in for `JSON.parse`, adequate for the single JSON
text of the C6 witness. -/
def jparseHello : List Char → Except String Json :=
  fun s => if s == "\"hello\"".toList then .ok (Json.str "hello") else .error "unsupported input"

/-- Witness for C6 at the claim's concrete input: the byte chunks
`'0:"hel'` then `'lo"\n'` yield exactly one part, a text part with value
`"hello"`. -/
theorem c6_chunk_reassembly_witness :
    readDataStream jparseHello ["0:\"hel".toList, "lo\"\n".toList]
      = .ok [⟨"text", Json.str "hello"⟩] := by
  rw [c6_chunk_reassembly jparseHello _ (by decide)]
  rfl

/-- A message object as assembled by `parseComplexResponse`
(`shared/parse-complex-response.ts`); fields that a given kind does not
set stay `none`. -/
structure PCMsg where
  id : String
  role : String
  content : String
  createdAt : Nat
  function_call : Option Json := none
  name : Option Json := none
  tool_calls : Option Json := none
  annotations : Option (List Json) := none

/-- The payload of a decoded `text` part (always a string there; other
shapes cannot reach the reconstructor). -/
def jsonAsString : Json → String
  | .str s => s
  | _ => ""

/-- The payload of a decoded `data` / `message_annotations` part (always
an array there). -/
def jsonAsArr : Json → List Json
  | .arr xs => xs
  | _ => []

/-- `assignAnnotationsToMessage(message, annotations)`: returns the
message unchanged when it is absent or the annotation list is absent or
empty, else a copy carrying the full annotation list. -/
def assignAnnotationsToMessage (message : Option PCMsg) (anns : Option (List Json)) :
    Option PCMsg :=
  match message with
  | none => none
  | some m =>
      match anns with
      | none => some m
      | some as => if as.length == 0 then some m else some { m with annotations := some as }

/-- The copy `(\x7b...assignAnnotationsToMessage(message, anns)\x7d)`
performed on each element of `merged` (the receiver is known present
there). -/
def mergedAssign (m : PCMsg) (anns : Option (List Json)) : PCMsg :=
  match anns with
  | none => m
  | some as => if as.length == 0 then m else { m with annotations := some as }

/-- State of one `parseComplexResponse` pass: the `prefixMap` entries,
the data channel, the accumulated `message_annotations`, and the number
of `generateId()` calls made so far (the id generator is modelled as a
function of that call count). -/
structure PCState where
  text : Option PCMsg := none
  function_call : Option PCMsg := none
  tool_calls : Option PCMsg := none
  data : List Json := []
  message_annotations : Option (List Json) := none
  ctr : Nat := 0

def PCState.init : PCState :=
  {}

/-- The body of the `for await` loop of `parseComplexResponse` for one
decoded part: returns the successor state, the `merged` list handed to
`update`, and the data-channel copy handed to `update`.

The restamping block (`if (message_annotations?.length) ... prefixMap[key].annotations = [...]`)
mutates the stored messages; the per-iteration locals
(`functionCallMessage` / `toolCallMessage` / `responseMessage`) alias
those stored objects except when the `message_annotations` branch
rebuilt them, and in every case the final per-element
`assignAnnotationsToMessage` in `merged` writes the same annotation
list again, so `merged` is computed from the pre-restamp locals with
that final assignment — extensionally identical to the aliased
mutation. -/
def stepPCR (gen : Nat → String) (createdAt : Nat) (st : PCState) (p : ParsedPart) :
    PCState × List PCMsg × List Json :=
  let st1 :=
    if p.type == "text" then
      match st.text with
      | some m =>
          { st with text := some { m with content := m.content ++ jsonAsString p.value } }
      | none =>
          { st with
              text := some { id := gen st.ctr, role := "assistant",
                             content := jsonAsString p.value, createdAt := createdAt },
              ctr := st.ctr + 1 }
    else st
  let st2 :=
    if p.type == "function_call" then
      { st1 with
          function_call := some { id := gen st1.ctr, role := "assistant", content := "",
                                  function_call := jsGetKey p.value "function_call",
                                  name := jsGetKeyU (jsGetKey p.value "function_call") "name",
                                  createdAt := createdAt },
          ctr := st1.ctr + 1 }
    else st1
  let functionCallMessage0 : Option PCMsg :=
    if p.type == "function_call" then st2.function_call else none
  let st3 :=
    if p.type == "tool_calls" then
      { st2 with
          tool_calls := some { id := gen st2.ctr, role := "assistant", content := "",
                               tool_calls := jsGetKey p.value "tool_calls",
                               createdAt := createdAt },
          ctr := st2.ctr + 1 }
    else st2
  let toolCallMessage0 : Option PCMsg :=
    if p.type == "tool_calls" then st3.tool_calls else none
  let st4 :=
    if p.type == "data" then { st3 with data := st3.data ++ jsonAsArr p.value } else st3
  let responseMessage0 : Option PCMsg := st4.text
  let st5 :=
    if p.type == "message_annotations" then
      { st4 with
          message_annotations :=
            match st4.message_annotations with
            | none => some (jsonAsArr p.value)
            | some olds => some (olds ++ jsonAsArr p.value) }
    else st4
  let functionCallMessage :=
    if p.type == "message_annotations" then
      assignAnnotationsToMessage st5.function_call st5.message_annotations
    else functionCallMessage0
  let toolCallMessage :=
    if p.type == "message_annotations" then
      assignAnnotationsToMessage st5.tool_calls st5.message_annotations
    else toolCallMessage0
  let responseMessage :=
    if p.type == "message_annotations" then
      assignAnnotationsToMessage st5.text st5.message_annotations
    else responseMessage0
  let st6 :=
    match st5.message_annotations with
    | some as =>
        if as.length != 0 then
          { st5 with
              text := st5.text.map (fun m => { m with annotations := some as }),
              function_call := st5.function_call.map (fun m => { m with annotations := some as }),
              tool_calls := st5.tool_calls.map (fun m => { m with annotations := some as }) }
        else st5
    | none => st5
  let merged :=
    ([functionCallMessage, toolCallMessage, responseMessage].filterMap id).map
      (fun m => mergedAssign m st5.message_annotations)
  (st6, merged, st6.data)

/-- The whole reconstruction pass over a decoded part list: final state
plus the sequence of `update` calls (merged list, data copy). -/
def runPCR (gen : Nat → String) (createdAt : Nat) :
    PCState → List ParsedPart → PCState × List (List PCMsg × List Json)
  | st, [] => (st, [])
  | st, p :: ps =>
      let r := stepPCR gen createdAt st p
      let rest := runPCR gen createdAt r.1 ps
      (rest.1, (r.2.1, r.2.2) :: rest.2)

/-- The final result of `parseComplexResponse` (`messages` in the fixed
priority order with absent kinds omitted, plus the data channel). -/
def pcrFinal (st : PCState) : List PCMsg × List Json :=
  ([st.text, st.function_call, st.tool_calls].filterMap id, st.data)

/-- Example decoded parts used by concrete counterexamples. -/
def fcPayloadEx : Json :=
  Json.obj [("function_call", Json.obj [("name", Json.str "f"), ("arguments", Json.str "")])]

def fcPartEx : ParsedPart :=
  ⟨"function_call", fcPayloadEx⟩

def textPartEx : ParsedPart :=
  ⟨"text", Json.str "hi"⟩

/-- **C3 counterexample.**  Claim C3 says an accumulator created by an
earlier part is included in the list emitted after every later part.
Run the reconstructor on a `function_call` part followed by a `text`
part (ids from the call counter): the first `update` carries exactly the
function-call accumulator (id `"0"`), but the `update` after the later
`text` part carries only the text accumulator (id `"1"`) — the
function-call accumulator is absent. -/
theorem c3_counterexample_fc_dropped_after_text :
    (((runPCR Nat.repr 0 PCState.init [fcPartEx, textPartEx]).2.getD 0 ([], [])).1.map PCMsg.id
        = ["0"])
      ∧ (((runPCR Nat.repr 0 PCState.init [fcPartEx, textPartEx]).2.getD 1 ([], [])).1.map PCMsg.id
        = ["1"]) :=
  ⟨rfl, rfl⟩

/-- Spec-side characterization (amended claim C3) of the list handed to
`update` after one part, in terms of the post-step state: in fixed order
`function_call`, `tool_calls`, `text`, where the function-call (resp.
tool-call) accumulator appears exactly when the part just consumed is of
that kind, or is a `message_annotations` part and the accumulator
exists; the text accumulator appears whenever it exists; each element
carries the current annotation snapshot. -/
def mergedSpecC3 (p : ParsedPart) (st' : PCState) : List PCMsg :=
  ((if p.type == "function_call"
        || (p.type == "message_annotations" && st'.function_call.isSome) then
      st'.function_call.toList
    else [])
   ++ (if p.type == "tool_calls"
        || (p.type == "message_annotations" && st'.tool_calls.isSome) then
      st'.tool_calls.toList
    else [])
   ++ st'.text.toList).map (fun m => mergedAssign m st'.message_annotations)

/-- **C3 (amended).** After each part the reconstructor calls the sink
with the accumulators described by `mergedSpecC3` — i.e. in the fixed
priority order function_call, tool_calls, text, each carrying the
current annotation snapshot, with the call-group accumulators included
only on the part that (re)creates them or on a `message_annotations`
part — together with a copy of the current data channel. -/
theorem c3_amended_update_payload (gen : Nat → String) (createdAt : Nat)
    (st : PCState) (p : ParsedPart) :
    (stepPCR gen createdAt st p).2.1 = mergedSpecC3 p (stepPCR gen createdAt st p).1
      ∧ (stepPCR gen createdAt st p).2.2 = (stepPCR gen createdAt st p).1.data := by
  rcases p with ⟨t, v⟩
  rcases st with ⟨stT, stF, stC, stD, stA, stN⟩
  by_cases h1 : t = "text"
  · subst h1
    rcases stT with _ | m <;> rcases stF with _ | mf <;> rcases stC with _ | mc <;>
      rcases stA with _ | ⟨_ | ⟨a, as⟩⟩ <;>
        simp [stepPCR, mergedSpecC3, mergedAssign, assignAnnotationsToMessage]
  by_cases h2 : t = "function_call"
  · subst h2
    rcases stT with _ | m <;> rcases stF with _ | mf <;> rcases stC with _ | mc <;>
      rcases stA with _ | ⟨_ | ⟨a, as⟩⟩ <;>
        simp [stepPCR, mergedSpecC3, mergedAssign, assignAnnotationsToMessage]
  by_cases h3 : t = "tool_calls"
  · subst h3
    rcases stT with _ | m <;> rcases stF with _ | mf <;> rcases stC with _ | mc <;>
      rcases stA with _ | ⟨_ | ⟨a, as⟩⟩ <;>
        simp [stepPCR, mergedSpecC3, mergedAssign, assignAnnotationsToMessage]
  by_cases h4 : t = "data"
  · subst h4
    rcases stT with _ | m <;> rcases stF with _ | mf <;> rcases stC with _ | mc <;>
      rcases stA with _ | ⟨_ | ⟨a, as⟩⟩ <;>
        simp [stepPCR, mergedSpecC3, mergedAssign, assignAnnotationsToMessage]
  by_cases h5 : t = "message_annotations"
  · subst h5
    rcases stT with _ | m <;> rcases stF with _ | mf <;> rcases stC with _ | mc <;>
      rcases stA with _ | ⟨_ | ⟨a, as⟩⟩ <;> rcases hv : jsonAsArr v with _ | ⟨b, bs⟩ <;>
        simp [stepPCR, mergedSpecC3, mergedAssign, assignAnnotationsToMessage, hv]
  · rcases stT with _ | m <;> rcases stF with _ | mf <;> rcases stC with _ | mc <;>
      rcases stA with _ | ⟨_ | ⟨a, as⟩⟩ <;>
        simp [stepPCR, mergedSpecC3, mergedAssign, assignAnnotationsToMessage,
          h1, h2, h3, h4, h5]

/-- **C4 counterexample.**  Claim C4 says a second `function_call` part
replaces the accumulator but keeps the id assigned at its first
creation.  Running the reconstructor (ids from the call counter) on two
`function_call` parts: the first creation gets id `"0"`, but after the
replacement the accumulator's id is `"1"` — a fresh `generateId()`
call, not the original id. -/
theorem c4_counterexample_replacement_gets_fresh_id :
    ((runPCR Nat.repr 0 PCState.init [fcPartEx]).1.function_call.map PCMsg.id = some "0")
      ∧ ((runPCR Nat.repr 0 PCState.init [fcPartEx, fcPartEx]).1.function_call.map PCMsg.id
          = some "1")
      ∧ ("1" : String) ≠ "0" :=
  ⟨rfl, rfl, by decide⟩

/-- **C4 (amended).** Within one reconstruction pass: the text
accumulator's id and createdAt never change once created and its content
is append-only; every accumulator (created or replaced) gets the
`createdAt` captured once at the start of the pass; but a part that
(re)creates the function_call or tool_calls accumulator always stamps it
with a fresh `generateId()` result (the current call-counter value), not
the id of the first creation. -/
theorem c4_amended_accumulator_identity (gen : Nat → String) (createdAt : Nat)
    (st : PCState) (p : ParsedPart) :
    (∀ m, st.text = some m →
      ∃ m', (stepPCR gen createdAt st p).1.text = some m'
        ∧ m'.id = m.id ∧ m'.createdAt = m.createdAt
        ∧ ∃ tail, m'.content = m.content ++ tail)
    ∧ (p.type = "text" → st.text = none →
      ∃ m', (stepPCR gen createdAt st p).1.text = some m'
        ∧ m'.id = gen st.ctr ∧ m'.createdAt = createdAt)
    ∧ (p.type = "function_call" →
      ∃ m', (stepPCR gen createdAt st p).1.function_call = some m'
        ∧ m'.id = gen st.ctr ∧ m'.createdAt = createdAt)
    ∧ (p.type = "tool_calls" →
      ∃ m', (stepPCR gen createdAt st p).1.tool_calls = some m'
        ∧ m'.id = gen st.ctr ∧ m'.createdAt = createdAt) := by
  rcases p with ⟨t, v⟩
  rcases st with ⟨stT, stF, stC, stD, stA, stN⟩
  refine ⟨?_, ?_, ?_, ?_⟩
  · intro m hm
    by_cases h1 : t = "text"
    · subst h1
      rcases stA with _ | ⟨_ | ⟨a, as⟩⟩ <;>
        simp_all [stepPCR] <;>
        first
          | rfl
          | exact ⟨jsonAsString v, rfl⟩
          | exact ⟨_, rfl, rfl, rfl, jsonAsString v, rfl⟩
          | exact ⟨"", by simp⟩
          | exact ⟨_, rfl, rfl, rfl, "", by simp⟩
    by_cases h5 : t = "message_annotations"
    · subst h5
      rcases stA with _ | ⟨_ | ⟨a, as⟩⟩ <;> rcases hv : jsonAsArr v with _ | ⟨b, bs⟩ <;>
        simp_all [stepPCR] <;>
        first
          | rfl
          | exact ⟨jsonAsString v, rfl⟩
          | exact ⟨_, rfl, rfl, rfl, jsonAsString v, rfl⟩
          | exact ⟨"", by simp⟩
          | exact ⟨_, rfl, rfl, rfl, "", by simp⟩
    · rcases stA with _ | ⟨_ | ⟨a, as⟩⟩ <;>
        simp_all [stepPCR, h1, h5, apply_ite PCState.text,
          apply_ite PCState.message_annotations] <;>
        first
          | rfl
          | exact ⟨jsonAsString v, rfl⟩
          | exact ⟨_, rfl, rfl, rfl, jsonAsString v, rfl⟩
          | exact ⟨"", by simp⟩
          | exact ⟨_, rfl, rfl, rfl, "", by simp⟩
  · intro ht hT
    subst ht
    subst hT
    rcases stA with _ | ⟨_ | ⟨a, as⟩⟩ <;> simp [stepPCR]
  · intro ht
    subst ht
    rcases stA with _ | ⟨_ | ⟨a, as⟩⟩ <;> simp [stepPCR]
  · intro ht
    subst ht
    rcases stA with _ | ⟨_ | ⟨a, as⟩⟩ <;> simp [stepPCR]

/-- Witness for C4 (amended): a text accumulator with id `"7"` and
content `"ab"` keeps id, createdAt and its content prefix across a
further text part. -/
theorem c4_amended_accumulator_identity_witness :
    ∃ m', (stepPCR Nat.repr 0
        ⟨some ⟨"7", "assistant", "ab", 0, none, none, none, none⟩,
         none, none, [], none, 1⟩ textPartEx).1.text = some m'
      ∧ m'.id = "7" ∧ m'.createdAt = 0
      ∧ ∃ tail, m'.content = "ab" ++ tail :=
  (c4_amended_accumulator_identity Nat.repr 0
    ⟨some ⟨"7", "assistant", "ab", 0, none, none, none, none⟩,
     none, none, [], none, 1⟩ textPartEx).1
    ⟨"7", "assistant", "ab", 0, none, none, none, none⟩ rfl

/-- `message.startsWith(pattern)` on char lists. -/
def listStartsWith : List Char → List Char → Bool
  | _, [] => true
  | [], _ :: _ => false
  | a :: as, b :: bs => a == b && listStartsWith as bs

/-- Static configuration of one `createFunctionCallTransformer` stage:
which experimental callbacks are configured, whether
`experimental_streamData` (complex mode) is on, whether an `onFinal`
hook is configured, and the host `JSON.stringify` for the encoder. -/
structure FCConfig where
  hasOnFunctionCall : Bool
  hasOnToolCall : Bool
  isComplexMode : Bool
  hasOnFinal : Bool
  stringify : Json → List Char

/-- What one user-callback invocation does: return a value or throw. -/
inductive CbRet where
  | noRes
  | strRes (s : List Char)
  | cont (chunks : List (List Char))

inductive CbBehavior where
  | ret (r : CbRet)
  | throwErr

/-- The closure state of `createFunctionCallTransformer` during the
transform phase, plus the chunks enqueued so far. -/
structure TState where
  isFirstChunk : Bool
  aggregatedResponse : List Char
  aggregatedFinal : List Char
  isFunctionStreamingIn : Bool
  outputs : List (List Char)

def TState.init : TState :=
  ⟨true, [], [], false, []⟩

/-- One `transform` call of `createFunctionCallTransformer` on a decoded
message. -/
def stepTransform (cfg : FCConfig) (st : TState) (message : List Char) : TState :=
  let aggFinal := st.aggregatedFinal ++ message
  let shouldHandleAsFunction :=
    st.isFirstChunk
      && (listStartsWith message ("\x7b\"function_call\":".toList)
          || listStartsWith message ("\x7b\"tool_calls\":".toList))
  if shouldHandleAsFunction then
    { isFirstChunk := false, aggregatedResponse := st.aggregatedResponse ++ message,
      aggregatedFinal := aggFinal, isFunctionStreamingIn := true, outputs := st.outputs }
  else if !st.isFunctionStreamingIn then
    { st with
        aggregatedFinal := aggFinal,
        outputs := st.outputs
          ++ [if cfg.isComplexMode then
                fmtPart cfg.stringify "text" (Json.str (String.mk message))
              else message] }
  else
    { st with
        aggregatedFinal := aggFinal,
        aggregatedResponse := st.aggregatedResponse ++ message }

/-- The transform phase over all chunks of one stage. -/
def runTransform (cfg : FCConfig) : TState → List (List Char) → TState
  | st, [] => st
  | st, c :: cs => runTransform cfg (stepTransform cfg st c) cs

/-- What one stage of the interceptor produced: the chunks it enqueued,
the arguments of the `onFinal` invocations made during it (including
recursion), and the error that escaped its `flush` (if any). -/
structure StageResult where
  outputs : List (List Char)
  finalCalls : List (List Char)
  error : Option String

/-- The `finally` block of `flush`:
`if (callbacks.onFinal && aggregatedFinalCompletionResponse) await callbacks.onFinal(...)`. -/
def finallyCalls (cfg : FCConfig) (st : TState) : List (List Char) :=
  if cfg.hasOnFinal && !st.aggregatedFinal.isEmpty then [st.aggregatedFinal] else []

/-- Whether `for (const tool of payload.tool_calls)` can read `tool.id`,
`tool.function.name` and `tool.function.arguments` without throwing: a
`null` element throws on `tool.id`; an element without an object (or
with a `null`) `function` property throws on `tool.function.name`. -/
def toolElemAccessOk (tool : Json) : Bool :=
  match tool with
  | .null => false
  | _ =>
      match jsGetKey tool "function" with
      | none => false
      | some .null => false
      | some _ => true

/-- `formatStreamPart(payload.function_call ? "function_call" : "tool_calls",
JSON.parse(aggregatedResponse))` in complex mode (re-parsing the buffer
yields `payload` again), or the raw buffered text otherwise. -/
def forwardBuffered (cfg : FCConfig) (payload : Json) (aggregated : List Char) : List Char :=
  if cfg.isComplexMode then
    fmtPart cfg.stringify
      (if jsTruthy (jsGetKey payload "function_call") then "function_call" else "tool_calls")
      payload
  else aggregated

/-- One whole run of a `createFunctionCallTransformer` stage (transform
phase then `flush`), with recursion for continuations returned by the
user callback.  `results` is the sequence of user-callback invocation
outcomes, consumed in invocation order across all recursion depths;
`fuel` bounds the recursion depth (any `fuel > results.length` is
enough, since each recursion consumes at least one outcome).

Faithful flush details: an `experimental_onFunctionCall` throw is NOT
caught (it escapes `flush`), while `experimental_onToolCall` is invoked
inside `try ... catch`, so its throw is swallowed; before recursing the
stage nulls its own `onFinal` but hands the original callbacks (with
`onFinal` intact) to the recursive stage; the `finally` block always
runs, also on the error paths. -/
def runStage (cfg : FCConfig) (jparse : List Char → Except String Json) :
    Nat → List CbBehavior → List (List Char) → StageResult
  | 0, _, _ => ⟨[], [], some "recursion fuel exhausted"⟩
  | Nat.succ fuel, results, chunks =>
      let st := runTransform cfg TState.init chunks
      if !st.isFirstChunk && st.isFunctionStreamingIn
          && (cfg.hasOnFunctionCall || cfg.hasOnToolCall) then
        match jparse st.aggregatedResponse with
        | .error e => ⟨st.outputs, finallyCalls cfg st, some e⟩
        | .ok payload =>
            let fcStep : Except String (Option CbRet × List CbBehavior) :=
              if cfg.hasOnFunctionCall then
                match jsGetKey payload "function_call" with
                | none => .error "TypeError: payload.function_call is undefined"
                | some fc =>
                    match jsGetKey fc "arguments" with
                    | some (.str a) =>
                        match jparse a.toList with
                        | .error e => .error e
                        | .ok _ =>
                            match results with
                            | [] => .ok (none, [])
                            | .throwErr :: _ => .error "experimental_onFunctionCall threw"
                            | .ret r :: rest =>
                                .ok ((match r with | .noRes => none | _ => some r), rest)
                    | _ => .error "SyntaxError: function_call.arguments is not a JSON string"
              else .ok (none, results)
            match fcStep with
            | .error e => ⟨st.outputs, finallyCalls cfg st, some e⟩
            | .ok (fr1, results1) =>
                let tcStep : Except String (Option CbRet × List CbBehavior) :=
                  if cfg.hasOnToolCall then
                    match jsGetKey payload "tool_calls" with
                    | some (.arr tools) =>
                        if tools.all toolElemAccessOk then
                          match results1 with
                          | [] => .ok (none, [])
                          | .throwErr :: rest => .ok (fr1, rest)
                          | .ret r :: rest =>
                              .ok ((match r with | .noRes => none | _ => some r), rest)
                        else .error "TypeError: malformed tool_calls element"
                    | _ => .error "TypeError: payload.tool_calls is not iterable"
                  else .ok (fr1, results1)
                match tcStep with
                | .error e => ⟨st.outputs, finallyCalls cfg st, some e⟩
                | .ok (none, _) =>
                    ⟨st.outputs ++ [forwardBuffered cfg payload st.aggregatedResponse],
                     finallyCalls cfg st, none⟩
                | .ok (some .noRes, _) =>
                    ⟨st.outputs ++ [forwardBuffered cfg payload st.aggregatedResponse],
                     finallyCalls cfg st, none⟩
                | .ok (some (.strRes s), _) =>
                    if s.isEmpty then
                      ⟨st.outputs ++ [forwardBuffered cfg payload st.aggregatedResponse],
                       finallyCalls cfg st, none⟩
                    else
                      ⟨st.outputs
                        ++ [if cfg.isComplexMode then
                              fmtPart cfg.stringify "text" (Json.str (String.mk s))
                            else s],
                       finallyCalls cfg st, none⟩
                | .ok (some (.cont cs), results2) =>
                    let inner := runStage cfg jparse fuel results2 cs
                    ⟨st.outputs ++ inner.outputs, inner.finalCalls, inner.error⟩
      else
        ⟨st.outputs, finallyCalls cfg st, none⟩

/-- The claim's first input chunk `'\x7b"function_call":'`. -/
def fcChunk1 : List Char :=
  "\x7b\"function_call\":".toList

/-- The claim's second input chunk `'\x7b"name":"f","arguments":"\x7b\x7d"\x7d\x7d'`. -/
def fcChunk2 : List Char :=
  "\x7b\"name\":\"f\",\"arguments\":\"\x7b\x7d\"\x7d\x7d".toList

/-- The JSON value of the fully buffered payload of the two chunks. -/
def payloadFC7 : Json :=
  Json.obj [("function_call",
    Json.obj [("name", Json.str "f"), ("arguments", Json.str "\x7b\x7d")])]

/-- A concrete stand-in for `JSON.parse` covering the two JSON texts the
C7/C8 runs parse. -/
def jparseC78 : List Char → Except String Json :=
  fun s =>
    if s == (fcChunk1 ++ fcChunk2) then .ok payloadFC7
    else if s == "\x7b\x7d".toList then .ok (Json.obj [])
    else .error "unsupported input"

/-- Interceptor with no function-call and no tool-call callback. -/
def cfgNoCb : FCConfig :=
  ⟨false, false, true, false, stringifyW⟩

/-- Interceptor with only `experimental_onFunctionCall`, complex mode. -/
def cfgFC : FCConfig :=
  ⟨true, false, true, false, stringifyW⟩

/-- Interceptor with `experimental_onFunctionCall` and an `onFinal`
hook, raw (non-complex) mode — the C8 recursion scenario. -/
def cfgFCRec : FCConfig :=
  ⟨true, false, false, true, stringifyW⟩

/-- **C7 counterexample.**  With no function-call (and no tool-call)
callback configured, the claim's chunks `'\x7b"function_call":'` then
`'\x7b"name":"f","arguments":"\x7b\x7d"\x7d\x7d'` do NOT forward as a
function_call structured part: the flush guard requires a configured
callback, so the stage enqueues nothing at all — the buffered payload is
dropped (and the stream ends cleanly). -/
theorem c7_counterexample_uncallbacked_payload_dropped :
    (runStage cfgNoCb jparseC78 1 [] [fcChunk1, fcChunk2]).outputs = ([] : List (List Char))
      ∧ (runStage cfgNoCb jparseC78 1 [] [fcChunk1, fcChunk2]).error = none :=
  ⟨rfl, rfl⟩

/-- **C7 (amended).** At end-of-stream in the CAPTURING state: (a) with
only a function-call callback configured that returns nothing, the
buffered payload is forwarded as one structured part (complex mode) or
as the raw buffered text; (b) with only a tool-call callback configured
that throws, the throw is swallowed and the payload forwarded the same
way, with no stream error; but (c) with no callback configured the
stage forwards nothing — the buffered payload is dropped. -/
theorem c7_amended_flush_forwarding (cfg : FCConfig)
    (jparse : List Char → Except String Json) (fuel : Nat)
    (results : List CbBehavior) (chunks : List (List Char)) (payload : Json)
    (hfc : (runTransform cfg TState.init chunks).isFirstChunk = false)
    (hfs : (runTransform cfg TState.init chunks).isFunctionStreamingIn = true)
    (hp : jparse (runTransform cfg TState.init chunks).aggregatedResponse = .ok payload) :
    (cfg.hasOnFunctionCall = true → cfg.hasOnToolCall = false →
      ∀ fc a args, jsGetKey payload "function_call" = some fc →
        jsGetKey fc "arguments" = some (Json.str a) →
        jparse a.toList = .ok args →
        results = [] →
        runStage cfg jparse (fuel + 1) results chunks =
          ⟨(runTransform cfg TState.init chunks).outputs
             ++ [forwardBuffered cfg payload
                  (runTransform cfg TState.init chunks).aggregatedResponse],
           finallyCalls cfg (runTransform cfg TState.init chunks), none⟩)
    ∧ (cfg.hasOnFunctionCall = false → cfg.hasOnToolCall = true →
      ∀ tools rest, jsGetKey payload "tool_calls" = some (Json.arr tools) →
        tools.all toolElemAccessOk = true →
        results = CbBehavior.throwErr :: rest →
        runStage cfg jparse (fuel + 1) results chunks =
          ⟨(runTransform cfg TState.init chunks).outputs
             ++ [forwardBuffered cfg payload
                  (runTransform cfg TState.init chunks).aggregatedResponse],
           finallyCalls cfg (runTransform cfg TState.init chunks), none⟩)
    ∧ (cfg.hasOnFunctionCall = false → cfg.hasOnToolCall = false →
      runStage cfg jparse (fuel + 1) results chunks =
        ⟨(runTransform cfg TState.init chunks).outputs,
         finallyCalls cfg (runTransform cfg TState.init chunks), none⟩) := by
  refine ⟨?_, ?_, ?_⟩
  · intro hF hT fc a args h1 h2 h3 h4
    subst h4
    simp only [String.toList] at h3
    simp only [runStage]
    simp [hfc, hfs, hF, hT, hp, h1, h2, h3]
  · intro hF hT tools rest h1 h2 h3
    subst h3
    simp only [runStage]
    simp [hfc, hfs, hF, hT, hp, h1, h2]
  · intro hF hT
    simp only [runStage]
    simp [hfc, hfs, hF, hT]

/-- Witness for C7 (amended), conjunct (a), at the claim's concrete
chunks with an `experimental_onFunctionCall` that returns nothing: the
stage forwards exactly the structured `function_call` part built from
the fully buffered JSON. -/
theorem c7_amended_flush_forwarding_witness :
    runStage cfgFC jparseC78 1 [] [fcChunk1, fcChunk2] =
      ⟨[forwardBuffered cfgFC payloadFC7 (fcChunk1 ++ fcChunk2)], [], none⟩ := by
  rw [(c7_amended_flush_forwarding cfgFC jparseC78 0 [] [fcChunk1, fcChunk2] payloadFC7
      rfl rfl rfl).1 rfl rfl
      (Json.obj [("name", Json.str "f"), ("arguments", Json.str "\x7b\x7d")])
      "\x7b\x7d" (Json.obj []) rfl rfl rfl rfl]
  rfl

theorem finallyCalls_length_le (cfg : FCConfig) (st : TState) :
    (finallyCalls cfg st).length ≤ 1 := by
  unfold finallyCalls
  split <;> simp

/-- **C8 (amended).** Across one whole interceptor run, at any recursion
depth and with any callback outcomes, the final-completion hook fires at
most once (it fires from the deepest stage, with that stage's aggregate
only, and does not fire at all when that aggregate is empty). -/
theorem c8_amended_final_hook_at_most_once (cfg : FCConfig)
    (jparse : List Char → Except String Json) :
    ∀ (fuel : Nat) (results : List CbBehavior) (chunks : List (List Char)),
      ((runStage cfg jparse fuel results chunks).finalCalls).length ≤ 1 := by
  intro fuel
  induction fuel with
  | zero =>
      intro results chunks
      simp [runStage]
  | succ n ih =>
      intro results chunks
      simp only [runStage]
      repeat' split
      all_goals
        first
          | exact finallyCalls_length_le cfg _
          | exact ih _ _
          | simp [finallyCalls_length_le]

/-- **C8 counterexample.**  With an `onFinal` hook and a function-call
callback that seeds one recursive continuation producing the chunk
`"ok"`, the hook's single invocation receives only `"ok"` — the inner
stage's aggregate — and not the concatenation of every chunk that passed
through at any recursion depth (which would also contain the buffered
function-call JSON of the outer stage). -/
theorem c8_counterexample_final_hook_gets_inner_aggregate_only :
    (runStage cfgFCRec jparseC78 2 [CbBehavior.ret (CbRet.cont ["ok".toList])]
        [fcChunk1, fcChunk2]).finalCalls = ["ok".toList]
      ∧ (["ok".toList] : List (List Char)) ≠ [fcChunk1 ++ fcChunk2 ++ "ok".toList] :=
  ⟨rfl, by decide⟩

/-- The raw-mode read loop of `callCompletionApi`
(`react/use-completion.ts` / `callCompletionApi`): `streamedResponse`
accumulates every decoded chunk, and each iteration appends the whole
running `streamedResponse` — not just the new chunk — to `result`, then
publishes `result` via `setCompletion`.  Returns the final `result` and
the `setCompletion` call history. -/
def rawLoop : List (List Char) → List Char → List Char → List (List Char) →
    List Char × List (List Char)
  | [], _, result, calls => (result, calls)
  | c :: cs, streamedResponse, result, calls =>
      let streamed2 := streamedResponse ++ c
      let result2 := result ++ streamed2
      rawLoop cs streamed2 result2 (calls ++ [result2])

/-- The complex-mode consumption loop of `callCompletionApi`: text parts
append to the completion, data parts go to `onData`. -/
def complexConsume (parts : List ParsedPart) : String × List (List Json) :=
  parts.foldl
    (fun acc p =>
      if p.type == "text" then (acc.1 ++ jsonAsString p.value, acc.2)
      else if p.type == "data" then (acc.1, acc.2 ++ [jsonAsArr p.value])
      else acc)
    ("", [])

/-- Observable outcome of `callCompletionApi` on a fully read body. -/
inductive CCResult where
  | complexDone (completion : String) (dataEvents : List (List Json))
  | complexFailed (e : String)
  | raw (result : List Char) (setCompletionCalls : List (List Char))
      (onFinishCompletion : List Char)

/-- `callCompletionApi` dispatch on the complex-mode response header
(`X-Experimental-Stream-Data`): complex mode exactly when the header
value is `"true"`; otherwise the raw read loop runs and `onFinish`
receives the final result. -/
def callCompletionApiModel (jparse : List Char → Except String Json)
    (header : Option String) (chunks : List (List Char)) : CCResult :=
  if header = some "true" then
    match readDataStream jparse chunks with
    | .error e => .complexFailed e
    | .ok parts => .complexDone (complexConsume parts).1 (complexConsume parts).2
  else
    let r := rawLoop chunks [] [] []
    .raw r.1 r.2 r.1

/-- The completion the claim describes: `c1 ++ (c1++c2) ++ … ++ (c1++…++cn)`. -/
def c10SpecResult (chunks : List (List Char)) : List Char :=
  ((List.range chunks.length).map (fun i => (chunks.take (i + 1)).flatten)).flatten

theorem rawLoop_result (chunks : List (List Char)) :
    ∀ (streamed result : List Char) (calls : List (List Char)),
      (rawLoop chunks streamed result calls).1
        = result
          ++ ((List.range chunks.length).map
                (fun i => streamed ++ (chunks.take (i + 1)).flatten)).flatten := by
  induction chunks with
  | nil => intro streamed result calls; simp [rawLoop]
  | cons c cs ih =>
      intro streamed result calls
      simp only [rawLoop]
      rw [ih]
      simp [List.range_succ_eq_map, List.map_map, Function.comp, List.append_assoc]
      congr 1

theorem rawLoop_last_call (chunks : List (List Char)) :
    ∀ (streamed result : List Char) (calls : List (List Char)), chunks ≠ [] →
      (rawLoop chunks streamed result calls).2.getLast?
        = some (rawLoop chunks streamed result calls).1 := by
  induction chunks with
  | nil => intro _ _ _ h; exact absurd rfl h
  | cons c cs ih =>
      intro streamed result calls _
      cases cs with
      | nil => simp [rawLoop]
      | cons d ds =>
          simp only [rawLoop]
          exact ih _ _ _ (by simp)

/-- **C10.** In raw-text mode (complex-mode header absent or not
`"true"`), for decoded chunks `c1, …, cn` the final completion — the
value returned, handed to `onFinish`, and published by the last
`setCompletion` call — is `c1 ++ (c1++c2) ++ … ++ (c1++…++cn)`: after
each chunk the whole running prefix is appended again, not only the new
chunk. -/
theorem c10_raw_mode_quadratic_accumulation (jparse : List Char → Except String Json)
    (header : Option String) (chunks : List (List Char)) (h : header ≠ some "true") :
    ∃ calls,
      callCompletionApiModel jparse header chunks
          = CCResult.raw (c10SpecResult chunks) calls (c10SpecResult chunks)
        ∧ (chunks ≠ [] → calls.getLast? = some (c10SpecResult chunks)) := by
  refine ⟨(rawLoop chunks [] [] []).2, ?_, ?_⟩
  · unfold callCompletionApiModel
    rw [if_neg h]
    have hr : (rawLoop chunks [] [] []).1 = c10SpecResult chunks := by
      rw [rawLoop_result]
      simp [c10SpecResult]
    simp only at hr ⊢
    rw [hr]
  · intro hne
    have hr : (rawLoop chunks [] [] []).1 = c10SpecResult chunks := by
      rw [rawLoop_result]
      simp [c10SpecResult]
    rw [rawLoop_last_call chunks [] [] [] hne, hr]

/-- Witness for C10 at the two chunks `"a"`, `"b"` with no complex-mode
header: the completion is `"a" ++ ("a" ++ "b") = "aab"`. -/
theorem c10_raw_mode_quadratic_accumulation_witness :
    ∃ calls,
      callCompletionApiModel jparseW none ["a".toList, "b".toList]
          = CCResult.raw (c10SpecResult ["a".toList, "b".toList]) calls
              (c10SpecResult ["a".toList, "b".toList])
        ∧ (["a".toList, "b".toList] ≠ ([] : List (List Char)) →
            calls.getLast? = some (c10SpecResult ["a".toList, "b".toList])) :=
  c10_raw_mode_quadratic_accumulation jparseW none ["a".toList, "b".toList] (by simp)

end AiSdk
